import Mathlib

set_option maxRecDepth 40000

/-!
# gowebdav — shallow embedding and verification of the spec's claims

This file embeds the core of the `gowebdav` WebDAV client (the authenticated
request pipeline, the Digest engine, the multistatus parsing, and the
collection-creation / copy-move retry logic) as executable Lean definitions,
translated from the Go source, and settles the frozen claims about it.

Modelling conventions:
* Go strings are Lean `String`s; Go byte slices are `List Nat` (each < 256).
* Machine integers are `Nat`/`Int` with explicit `% 2 ^ 32` where overflow
  matters (the MD5 compression function).
* The HTTP transport (`http.Client.Do`) is an oracle: a list of
  `Except String HttpResponse` values consumed one per physical request; an
  `Except.error` models a transport error, an exhausted list behaves the same.
* Stateful Go code (the lock-guarded `client.auth` field) becomes explicit
  state passing; each pipeline run also returns the trace of the physical
  request attempts it issued, so claims about "how many times" and
  "with which body" are statable.
* `time.Parse(time.RFC1123, _)` (Go standard library, outside this repo) is an
  abstract parameter `rfc1123 : String → Option Int`; a time is its Unix
  seconds value, so `time.Unix(0, 0)` is `0`.
-/

/-! ## String helpers (Go `strings` package semantics, char-level) -/

/-- Is `needle` a leading segment of `hay`? (char lists). -/
def chLeads : List Char → List Char → Bool
  | [], _ => true
  | _ :: _, [] => false
  | a :: as, b :: bs => a == b && chLeads as bs

/-- Does `hay` contain `needle` as a contiguous sublist?  `strings.Contains`. -/
def chHasSub (needle : List Char) : List Char → Bool
  | [] => chLeads needle []
  | b :: bs => chLeads needle (b :: bs) || chHasSub needle bs

/-- Go `strings.Contains s sub`. -/
def strContains (s sub : String) : Bool := chHasSub sub.data s.data

/-- Split a char list on a single delimiter character; always non-empty. -/
def splitChar (c : Char) : List Char → List (List Char)
  | [] => [[]]
  | x :: xs =>
    match splitChar c xs with
    | [] => [[]]
    | h :: t => if x == c then [] :: h :: t else (x :: h) :: t

/-- Go `strings.Split s (String.singleton c)` (both uses in the source split
on a one-character separator, `/` or `,`). -/
def strSplit (s : String) (c : Char) : List String :=
  (splitChar c s.data).map String.mk

/-- ASCII lower-casing of one char (the header tokens compared in the source
are ASCII, so Go's Unicode `strings.ToLower` agrees with this on them). -/
def charLower (ch : Char) : Char :=
  if 'A' ≤ ch ∧ ch ≤ 'Z' then Char.ofNat (ch.toNat + 32) else ch

/-- Go `strings.ToLower` (ASCII fragment). -/
def strToLower (s : String) : String := String.mk (s.data.map charLower)

/-- Does the string start with a `/`?  (`strings.HasPrefix s "/"`). -/
def startsSlash (s : String) : Bool :=
  match s.data with
  | '/' :: _ => true
  | _ => false

/-- Does the string end with a `/`?  (`strings.HasSuffix s "/"`). -/
def endsSlash (s : String) : Bool :=
  match s.data.getLast? with
  | some '/' => true
  | _ => false

/-! ## utils.go: slash normalisation -/

/-- utils.go `withoutTrailingSlash`. -/
def withoutTrailingSlash (s : String) : String :=
  if endsSlash s then String.mk s.data.dropLast else s

/-- utils.go `withTrailingSlash`. -/
def withTrailingSlash (s : String) : String :=
  if endsSlash s then s else s ++ "/"

/-- utils.go `withLeadingSlash`. -/
def withLeadingSlash (s : String) : String :=
  if startsSlash s then s else "/" ++ s

/-- utils.go `withSurroundingSlashes`. -/
def withSurroundingSlashes (s : String) : String :=
  withTrailingSlash (if startsSlash s then s else "/" ++ s)

/-! ## Go `path` package: `Clean`, `Dir`, `Base` (lexical, slash-separated) -/

/-- One step of the `path.Clean` element walk; `out` is the kept elements in
reverse order. `..` pops a kept element unless the last kept one is itself
`..`; at the top it is dropped when rooted and kept otherwise. -/
def pathCleanStep (rooted : Bool) (out : List String) (c : String) : List String :=
  if c = "" ∨ c = "." then out
  else if c = ".." then
    match out with
    | top :: rest => if top = ".." then ".." :: top :: rest else rest
    | [] => if rooted then [] else [".."]
  else c :: out

/-- Go `path.Clean` (same lexical semantics as the lazybuf walk). -/
def pathClean (p : String) : String :=
  if p = "" then "."
  else
    let rooted := startsSlash p
    let out := ((strSplit p '/').foldl (pathCleanStep rooted) []).reverse
    let res := (if rooted then "/" else "") ++ String.intercalate "/" out
    if res = "" then "." else res

/-- Everything up to and including the final `/` of the list (empty if none):
the `dir` half of Go `path.Split`. -/
def dropUntilSlash : List Char → List Char
  | [] => []
  | '/' :: rest => '/' :: rest
  | _ :: rest => dropUntilSlash rest

/-- Go `path.Dir`: `Clean` of the `dir` half of `Split`. -/
def pathDir (p : String) : String :=
  pathClean (String.mk (dropUntilSlash p.data.reverse).reverse)

/-- Go `path.Base`. -/
def pathBase (p : String) : String :=
  if p = "" then "."
  else
    let l := (p.data.reverse.dropWhile (· == '/')).reverse
    if l.isEmpty then "/"
    else String.mk (l.reverse.takeWhile (· != '/')).reverse

/-! ## utils.go: `parseInt64` (strconv.ParseInt base 10 bitSize 64) -/

def digitVal (ch : Char) : Option Nat :=
  if '0' ≤ ch ∧ ch ≤ '9' then some (ch.toNat - 48) else none

def digitsValAux : Nat → List Char → Option Nat
  | acc, [] => some acc
  | acc, c :: rest => (digitVal c).bind fun d => digitsValAux (acc * 10 + d) rest

/-- Decimal value of a non-empty all-digit char list, else `none`. -/
def digitsVal : List Char → Option Nat
  | [] => none
  | l => digitsValAux 0 l

/-- Go `strconv.ParseInt(s, 10, 64)`: optional sign, decimal digits, 64-bit
range check; `none` models a non-nil error. -/
def goParseInt64 (s : String) : Option Int :=
  match s.data with
  | [] => none
  | c :: rest =>
    if c = '+' then
      (digitsVal rest).bind fun n =>
        if n ≤ 9223372036854775807 then some (Int.ofNat n) else none
    else if c = '-' then
      (digitsVal rest).bind fun n =>
        if n ≤ 9223372036854775808 then some (-(Int.ofNat n)) else none
    else
      (digitsVal (c :: rest)).bind fun n =>
        if n ≤ 9223372036854775807 then some (Int.ofNat n) else none

/-- utils.go `parseInt64`: the parsed value, or `0` on any parse error. -/
def parseInt64 (s : String) : Int := (goParseInt64 s).getD 0

/-- utils.go `parseModified`, parametric in the standard library's RFC 1123
parser: the parsed time, or the Unix epoch (`time.Unix(0, 0)`, modelled `0`)
on any parse error. -/
def parseModified (rfc1123 : String → Option Int) (s : String) : Int :=
  (rfc1123 s).getD 0

example : parseInt64 "42" = 42 := by decide
example : parseInt64 "-7" = -7 := by decide
example : parseInt64 "12x" = 0 := by decide
example : parseInt64 "" = 0 := by decide
example : parseInt64 "9223372036854775808" = 0 := by decide
example : pathClean "/a/b/c" = "/a/b/c" := by decide
example : pathClean "a/" = "a" := by decide
example : pathClean "" = "." := by decide
example : pathClean "/.." = "/" := by decide
example : pathDir "/p/new" = "/p" := by decide
example : pathDir "/new" = "/" := by decide
example : pathDir "new" = "." := by decide
example : pathBase "/a/b" = "b" := by decide
example : pathBase "///" = "/" := by decide
example : strContains "Digest realm" "digest" = false := by decide
example : strContains (strToLower "Digest realm") "digest" = true := by decide
example : strSplit "/a/b/" '/' = ["", "a", "b", ""] := by decide
example : withSurroundingSlashes (pathClean "/a/b/c") = "/a/b/c/" := by decide

/-! ## auth/digestAuth.go: MD5 (Go `crypto/md5`, RFC 1321) over `Nat` words -/

/-- Truncate to a 32-bit word. -/
def m32 (n : Nat) : Nat := n % 4294967296

/-- Rotate a 32-bit word left by `s` bits. -/
def rotl (x s : Nat) : Nat := m32 ((x <<< s) ||| (x >>> (32 - s)))

/-- Bitwise complement of a 32-bit word. -/
def not32 (x : Nat) : Nat := x ^^^ 4294967295

def md5F (b c d : Nat) : Nat := (b &&& c) ||| (not32 b &&& d)
def md5G (b c d : Nat) : Nat := (d &&& b) ||| (not32 d &&& c)
def md5H (b c d : Nat) : Nat := b ^^^ c ^^^ d
def md5I (b c d : Nat) : Nat := c ^^^ (b ||| not32 d)

/-- RFC 1321 sine table `T[1..64]`. -/
def md5K : List Nat :=
  [0xd76aa478, 0xe8c7b756, 0x242070db, 0xc1bdceee,
   0xf57c0faf, 0x4787c62a, 0xa8304613, 0xfd469501,
   0x698098d8, 0x8b44f7af, 0xffff5bb1, 0x895cd7be,
   0x6b901122, 0xfd987193, 0xa679438e, 0x49b40821,
   0xf61e2562, 0xc040b340, 0x265e5a51, 0xe9b6c7aa,
   0xd62f105d, 0x02441453, 0xd8a1e681, 0xe7d3fbc8,
   0x21e1cde6, 0xc33707d6, 0xf4d50d87, 0x455a14ed,
   0xa9e3e905, 0xfcefa3f8, 0x676f02d9, 0x8d2a4c8a,
   0xfffa3942, 0x8771f681, 0x6d9d6122, 0xfde5380c,
   0xa4beea44, 0x4bdecfa9, 0xf6bb4b60, 0xbebfbc70,
   0x289b7ec6, 0xeaa127fa, 0xd4ef3085, 0x04881d05,
   0xd9d4d039, 0xe6db99e5, 0x1fa27cf8, 0xc4ac5665,
   0xf4292244, 0x432aff97, 0xab9423a7, 0xfc93a039,
   0x655b59c3, 0x8f0ccc92, 0xffeff47d, 0x85845dd1,
   0x6fa87e4f, 0xfe2ce6e0, 0xa3014314, 0x4e0811a1,
   0xf7537e82, 0xbd3af235, 0x2ad7d2bb, 0xeb86d391]

/-- Per-round left-rotation amounts. -/
def md5S : List Nat :=
  [7, 12, 17, 22, 7, 12, 17, 22, 7, 12, 17, 22, 7, 12, 17, 22,
   5, 9, 14, 20, 5, 9, 14, 20, 5, 9, 14, 20, 5, 9, 14, 20,
   4, 11, 16, 23, 4, 11, 16, 23, 4, 11, 16, 23, 4, 11, 16, 23,
   6, 10, 15, 21, 6, 10, 15, 21, 6, 10, 15, 21, 6, 10, 15, 21]

/-- The `i`-th element of a `Nat` list, defaulting to `0`. -/
def nthD (l : List Nat) (i : Nat) : Nat := (l.drop i).headD 0

/-- Little-endian 32-bit word at word offset `g` of a 64-byte block. -/
def blockWord (blk : List Nat) (g : Nat) : Nat :=
  nthD blk (4 * g) + 256 * nthD blk (4 * g + 1) +
    65536 * nthD blk (4 * g + 2) + 16777216 * nthD blk (4 * g + 3)

/-- One of the 64 MD5 operations on the register file `(a, b, c, d)`. -/
def md5Step (blk : List Nat) (st : Nat × Nat × Nat × Nat) (i : Nat) :
    Nat × Nat × Nat × Nat :=
  let (a, b, c, d) := st
  let f := if i < 16 then md5F b c d
    else if i < 32 then md5G b c d
    else if i < 48 then md5H b c d
    else md5I b c d
  let g := if i < 16 then i
    else if i < 32 then (5 * i + 1) % 16
    else if i < 48 then (3 * i + 5) % 16
    else (7 * i) % 16
  (d, m32 (b + rotl (m32 (a + f + nthD md5K i + blockWord blk g)) (nthD md5S i)), b, c)

/-- Fold the compression function over the 64-byte blocks. -/
def md5Blocks : Nat × Nat × Nat × Nat → List (List Nat) → Nat × Nat × Nat × Nat
  | h, [] => h
  | (h0, h1, h2, h3), blk :: rest =>
    let (a, b, c, d) := (List.range 64).foldl (md5Step blk) (h0, h1, h2, h3)
    md5Blocks (m32 (h0 + a), m32 (h1 + b), m32 (h2 + c), m32 (h3 + d)) rest

/-- MD5 padding: `0x80`, zeros to 56 mod 64, 64-bit little-endian bit length. -/
def padMsg (msg : List Nat) : List Nat :=
  let len := msg.length
  let zeros := (119 - len % 64) % 64
  let bitLen := (len * 8) % 18446744073709551616
  msg ++ [128] ++ List.replicate zeros 0 ++
    ((List.range 8).map fun i => (bitLen >>> (8 * i)) &&& 255)

/-- Split a byte list into its 64-byte blocks (the padded message length is
always a multiple of 64). -/
def toChunks (l : List Nat) : List (List Nat) :=
  (List.range (l.length / 64)).map fun i => (l.drop (64 * i)).take 64

def wordLEBytes (w : Nat) : List Nat :=
  [w &&& 255, (w >>> 8) &&& 255, (w >>> 16) &&& 255, (w >>> 24) &&& 255]

/-- MD5 digest (16 bytes) of a byte list. -/
def md5Bytes (msg : List Nat) : List Nat :=
  let (a, b, c, d) :=
    md5Blocks (0x67452301, 0xefcdab89, 0x98badcfe, 0x10325476) (toChunks (padMsg msg))
  wordLEBytes a ++ wordLEBytes b ++ wordLEBytes c ++ wordLEBytes d

/-- UTF-8 bytes of one char (Go strings are UTF-8 byte sequences). -/
def utf8Bytes (c : Char) : List Nat :=
  let n := c.toNat
  if n < 128 then [n]
  else if n < 2048 then [192 ||| (n >>> 6), 128 ||| (n &&& 63)]
  else if n < 65536 then
    [224 ||| (n >>> 12), 128 ||| ((n >>> 6) &&& 63), 128 ||| (n &&& 63)]
  else
    [240 ||| (n >>> 18), 128 ||| ((n >>> 12) &&& 63),
     128 ||| ((n >>> 6) &&& 63), 128 ||| (n &&& 63)]

/-- The UTF-8 bytes of a string (Go `[]byte(s)`). -/
def strBytes (s : String) : List Nat := (s.data.map utf8Bytes).flatten

def hexDigitLower (n : Nat) : Char :=
  if n < 10 then Char.ofNat (48 + n) else Char.ofNat (87 + n)

/-- Lowercase hex of one byte. -/
def byteHex (b : Nat) : List Char := [hexDigitLower (b / 16), hexDigitLower (b % 16)]

/-- auth/digestAuth.go `md5`: lowercase hex MD5 of the UTF-8 bytes
(`hex.EncodeToString(hasher.Sum(nil))`). -/
def md5 (text : String) : String :=
  String.mk ((md5Bytes (strBytes text)).map byteHex).flatten

example : md5 "" = "d41d8cd98f00b204e9800998ecf8427e" := by decide
example : md5 "abc" = "900150983cd24fb0d6963f7d28e17f72" := by decide
example : md5 "u:r:p" = "44add22b6f3179b751eafd68ee370f7d" := by decide

/-! ## auth/digestAuth.go: the Digest engine

`getDigestAuthorization` is one Go function computing `ha1`, `ha2` and
`response` in three `switch` blocks and then assembling the header string.
Each block is one Lean definition below (`digestHa1`, `digestHa2`,
`digestResponse`), and `getDigestAuthorization` assembles them, so the data
flow is the same.  The random `cnonce := getCnonce()` drawn once per call is a
parameter; `nonceCount = 00000001` is the literal `1`, printed by `%v` as
`"1"`. -/

/-- Go map lookup `d[k]` with the zero-value default `""`. -/
def dget (d : List (String × String)) (k : String) : String :=
  match d.find? (fun kv => kv.1 == k) with
  | some kv => kv.2
  | none => ""

/-- Replace-or-add an entry of a string map (`d[k] = v`). -/
def dset (d : List (String × String)) (k v : String) : List (String × String) :=
  if (d.find? (fun kv => kv.1 == k)).isSome then
    d.map fun kv => if kv.1 == k then (k, v) else kv
  else d ++ [(k, v)]

/-- `strings.Trim(value, q)` where the cutset is the double-quote char. -/
def trimQuotes (s : String) : String :=
  let a := s.data.dropWhile (· == '"')
  String.mk (a.reverse.dropWhile (· == '"')).reverse

/-- `strings.SplitN(r, "=", 2)[1]`: everything after the first `=`.  (With no
`=` present the Go code would panic on the index; that case is unreachable in
well-formed challenges and modelled as `""`.) -/
def afterEq (s : String) : String :=
  match strSplit s '=' with
  | _ :: v :: rest => String.intercalate "=" (v :: rest)
  | _ => ""

/-- auth/digestAuth.go `DigestParts`: extract the wanted challenge parameters
from a `WWW-Authenticate` header into a fresh map. -/
def digestPartsOf (wwwAuthenticateHeader : String) : List (String × String) :=
  if wwwAuthenticateHeader.data.length > 0 then
    let wantedHeaders := ["nonce", "realm", "qop", "opaque", "algorithm", "entityBody"]
    (strSplit wwwAuthenticateHeader ',').foldl
      (fun m r =>
        wantedHeaders.foldl
          (fun m w => if strContains r w then dset m w (trimQuotes (afterEq r)) else m)
          m)
      []
  else []

/-- The `ha1` switch of `getDigestAuthorization` (on `d["algorithm"]`). -/
def digestHa1 (d : List (String × String)) (cnonce : String) : String :=
  let alg := dget d "algorithm"
  if alg = "MD5" ∨ alg = "" then
    md5 (dget d "username" ++ ":" ++ dget d "realm" ++ ":" ++ dget d "password")
  else if alg = "MD5-sess" then
    md5 (md5 (dget d "username" ++ ":" ++ dget d "realm" ++ ":" ++ dget d "password")
      ++ ":1:" ++ cnonce)
  else ""

/-- The `ha2` switch of `getDigestAuthorization` (on `d["qop"]`). -/
def digestHa2 (d : List (String × String)) : String :=
  let qop := dget d "qop"
  if qop = "auth" ∨ qop = "" then
    md5 (dget d "method" ++ ":" ++ dget d "uri")
  else if qop = "auth-int" then
    if dget d "entityBody" ≠ "" then
      md5 (dget d "method" ++ ":" ++ dget d "uri" ++ ":" ++ md5 (dget d "entityBody"))
    else ""
  else ""

/-- The `response` switch of `getDigestAuthorization` (on `d["qop"]`). -/
def digestResponse (d : List (String × String)) (cnonce : String) : String :=
  let qop := dget d "qop"
  if qop = "" then
    md5 (digestHa1 d cnonce ++ ":" ++ dget d "nonce" ++ ":" ++ digestHa2 d)
  else if qop = "auth" ∨ qop = "auth-int" then
    md5 (digestHa1 d cnonce ++ ":" ++ dget d "nonce" ++ ":1:" ++ cnonce ++ ":"
      ++ qop ++ ":" ++ digestHa2 d)
  else ""

/-- auth/digestAuth.go `getDigestAuthorization`: the assembled header value. -/
def getDigestAuthorization (d : List (String × String)) (cnonce : String) : String :=
  let base := "Digest username=\"" ++ dget d "username" ++ "\", realm=\"" ++ dget d "realm"
    ++ "\", nonce=\"" ++ dget d "nonce" ++ "\", uri=\"" ++ dget d "uri"
    ++ "\", nc=1, cnonce=\"" ++ cnonce ++ "\", response=\"" ++ digestResponse d cnonce ++ "\""
  let withQop := if dget d "qop" ≠ "" then base ++ ", qop=" ++ dget d "qop" else base
  if dget d "opaque" ≠ "" then withQop ++ ", opaque=\"" ++ dget d "opaque" ++ "\""
  else withQop

/-! ## auth package: the Authenticator variants present in the source
(`noAuth` covers both `auth.Anonymous` and `auth.Deferred`). -/

inductive Authenticator where
  | noAuth (user pw : String)
  | basicAuth (user pw : String)
  | digestAuth (user pw : String) (digestParts : List (String × String))
deriving Repr, DecidableEq

/-- The `Type()` discriminator of each variant, exactly as the source returns
it: note `noAuth.Type()` is the string `"NoAuth"` (authenticator.go line 30). -/
def Authenticator.type : Authenticator → String
  | .noAuth _ _ => "NoAuth"
  | .basicAuth _ _ => "Basic"
  | .digestAuth _ _ _ => "Digest"

def Authenticator.user : Authenticator → String
  | .noAuth u _ => u
  | .basicAuth u _ => u
  | .digestAuth u _ _ => u

def Authenticator.password : Authenticator → String
  | .noAuth _ p => p
  | .basicAuth _ p => p
  | .digestAuth _ p _ => p

/-! ## utils.go: `pathEscape` (each `/`-separated segment escaped with Go
`url.PathEscape`) -/

def isAlphaNum (ch : Char) : Bool :=
  ('A' ≤ ch && ch ≤ 'Z') || ('a' ≤ ch && ch ≤ 'z') || ('0' ≤ ch && ch ≤ '9')

/-- Go `shouldEscape(c, encodePathSegment) = false`: unreserved chars plus the
sub-delims Go keeps verbatim inside one path segment. -/
def keepInSegment (ch : Char) : Bool :=
  isAlphaNum ch || ch == '-' || ch == '_' || ch == '.' || ch == '~' ||
    ch == '$' || ch == '&' || ch == '+' || ch == ':' || ch == '=' || ch == '@'

def hexDigitUpper (n : Nat) : Char :=
  if n < 10 then Char.ofNat (48 + n) else Char.ofNat (55 + n)

/-- Go `url.PathEscape` of one segment: kept chars verbatim, all other bytes
percent-encoded with uppercase hex. -/
def escapeSeg (s : String) : String :=
  String.mk ((s.data.map fun ch =>
    if keepInSegment ch then [ch]
    else ((utf8Bytes ch).map fun b => ['%', hexDigitUpper (b / 16), hexDigitUpper (b % 16)]).flatten).flatten)

/-- utils.go `pathEscape`: escape every segment, keep the `/` boundaries. -/
def pathEscape (path : String) : String :=
  String.intercalate "/" ((strSplit path '/').map escapeSeg)

/-- Go `url.PathUnescape` (char-level): decode `%XX`, error on a malformed
escape. -/
def unhex (ch : Char) : Option Nat :=
  if '0' ≤ ch ∧ ch ≤ '9' then some (ch.toNat - 48)
  else if 'a' ≤ ch ∧ ch ≤ 'f' then some (ch.toNat - 87)
  else if 'A' ≤ ch ∧ ch ≤ 'F' then some (ch.toNat - 55)
  else none

def pathUnescapeCh : List Char → Option (List Char)
  | [] => some []
  | '%' :: a :: b :: rest =>
    match unhex a, unhex b, pathUnescapeCh rest with
    | some ha, some hb, some r => some (Char.ofNat (16 * ha + hb) :: r)
    | _, _, _ => none
  | '%' :: _ => none
  | c :: rest => (pathUnescapeCh rest).map (c :: ·)

def pathUnescape (s : String) : Option String :=
  (pathUnescapeCh s.data).map String.mk

/-! ## The multistatus data model (client.go `props` / `response`, utils.go
`parseXML`)

A decoded `<response>` element is a `RespRec`; the XML token stream of a
multistatus body is abstracted to the sequence of its interesting events:
`respElem (some r)` is a `response` start element whose subtree decodes to
`r`, `respElem none` is one whose `DecodeElement` fails, and `otherTok` is
any other token. -/

/-- client.go `props`: one `propstat` of a multistatus response element. -/
structure PropsRec where
  status : String
  name : String
  typeLocal : String
  size : String
  contentType : String
  etag : String
  modified : String
deriving Repr, DecidableEq

/-- client.go `response`: one decoded `<response>` element. -/
structure RespRec where
  href : String
  propstats : List PropsRec
deriving Repr, DecidableEq

inductive XmlItem where
  | otherTok
  | respElem (dec : Option RespRec)
deriving Repr, DecidableEq

/-- A Go error value as the claims observe it. -/
inductive GoErr where
  /-- utils.go `newPathError op path status` (an `*os.PathError` whose inner
  error renders the literal status code). -/
  | pathStatus (op path : String) (status : Nat)
  /-- utils.go `newPathErrorErr op path err` wrapping another error. -/
  | pathWrap (op path : String) (inner : GoErr)
  /-- a plain `fmt.Errorf` error. -/
  | errMsg (msg : String)
  /-- an error from the `http.Client.Do` transport. -/
  | transport (msg : String)
deriving Repr, DecidableEq

/-- Is this an `*os.PathError`? (the type assertion in `ReadDir`/`Stat`). -/
def GoErr.isPathError : GoErr → Bool
  | .pathStatus _ _ _ => true
  | .pathWrap _ _ _ => true
  | .errMsg _ => false
  | .transport _ => false

/-- One HTTP response as the client observes it: the status code, the status
line (`res.Status`), the `Www-Authenticate` header, and — for multistatus
responses — the XML event stream of the body. -/
structure HttpResponse where
  statusCode : Nat
  statusLine : String
  wwwAuthenticate : String
  entries : List XmlItem
deriving Repr, DecidableEq

deriving instance DecidableEq for Except

/-- The transport oracle: the successive outcomes `http.Client.Do` will
produce, consumed one per physical request. -/
abbrev Transport := List (Except String HttpResponse)

/-- Pop the next transport outcome (an exhausted oracle acts as a transport
error). -/
def doTransport : Transport → Except String HttpResponse × Transport
  | [] => (Except.error "transport: no response", [])
  | r :: rest => (r, rest)

/-- One physical request attempt, as recorded in the pipeline trace:
the method, the full URL (`c.root + pathEscape(path)`), the raw path
argument, the body bytes attached (the retained tee view on a retry), the
per-call header overrides, and the `Type()` of the Authenticator snapshot
applied to it. -/
structure Attempt where
  method : String
  url : String
  rawPath : String
  body : Option String
  header : List (String × String)
  authType : String
deriving Repr, DecidableEq

/-- client.go `client`: the shared state (`root`, default headers, and the
lock-guarded current Authenticator). -/
structure ClientState where
  root : String
  headers : List (String × String)
  auth : Authenticator
deriving Repr, DecidableEq

/-- client.go `NewClient` with `SetAuthentication`: root without its trailing
slash, no default headers. -/
def NewClient (uri : String) (a : Authenticator) : ClientState :=
  ⟨withoutTrailingSlash uri, [], a⟩

/-- The result pair `(res, err)` of `client.request` as its callers use it
(`err != nil` is `fail`; no caller reads `res` once `err != nil`). -/
inductive ReqOut where
  | ok (res : HttpResponse)
  | fail (e : GoErr)
deriving Repr, DecidableEq

/-- The outcome of one client operation: the client state after it, the
unconsumed transport oracle, the trace of physical attempts issued, and the
operation's value. -/
structure Run (α : Type) where
  st : ClientState
  tr : Transport
  atts : List Attempt
  val : α
deriving Repr, DecidableEq

/-! ## The request pipeline (`client.request`, the header-override version of
requests.go, lines 212–293)

The tee of the body (two views of the same bytes, `ba`/`bb`) is modelled by
the body being a byte string: the view attached to the outgoing request and
the retained view passed to the retry hold the same bytes, exactly as both Go
branches of the tee construct them.  The recursion in the upgrade branch is
general recursion in Go, so the model takes explicit fuel; `request` below
supplies more fuel than the transport oracle can ever feed, so the fuel case
is unreachable. -/

def requestGo : Nat → ClientState → String → String → Option String →
    List (String × String) → Transport → ClientState × Transport × List Attempt × ReqOut
  | 0, st, _, _, _, _, tr => (st, tr, [], .fail (.transport "fuel exhausted"))
  | fuel + 1, st, method, path, body, header, tr =>
    let u := st.root ++ pathEscape path
    let auth := st.auth
    let att : Attempt := ⟨method, u, path, body, header, auth.type⟩
    match doTransport tr with
    | (.error e, tr') => (st, tr', [att], .fail (.transport e))
    | (.ok res, tr') =>
      if res.statusCode = 401 ∧ auth.type = "noAuth" then
        let lc := strToLower res.wwwAuthenticate
        if strContains lc "digest" then
          let st' := { st with
            auth := .digestAuth auth.user auth.password (digestPartsOf res.wwwAuthenticate) }
          let (st2, tr2, as2, out) := requestGo fuel st' method path body header tr'
          (st2, tr2, att :: as2, out)
        else if strContains lc "basic" then
          let st' := { st with auth := .basicAuth auth.user auth.password }
          let (st2, tr2, as2, out) := requestGo fuel st' method path body header tr'
          (st2, tr2, att :: as2, out)
        else
          (st, tr', [att], .fail (.pathStatus "Authorize" st.root res.statusCode))
      else if res.statusCode = 401 then
        (st, tr', [att], .fail (.pathStatus "Authorize" st.root res.statusCode))
      else
        (st, tr', [att], .ok res)

/-- `client.request` with ample fuel (the oracle can feed at most
`tr.length` responses, so the fuel case is unreachable). -/
def request (st : ClientState) (method path : String) (body : Option String)
    (header : List (String × String)) (tr : Transport) :
    ClientState × Transport × List Attempt × ReqOut :=
  requestGo (tr.length + 1) st method path body header tr

/-! ## requests.go: `mkcol`, `createParentCollection`, `copymove` and
client.go: `Mkdir`, `MkdirAll` -/

def MethodMkcol : String := "MKCOL"
def MethodPropfind : String := "PROPFIND"
def MethodCopy : String := "COPY"
def MethodMove : String := "MOVE"

/-- requests.go `mkcol`: any request error collapses to `400 Bad Request`;
a `405 Method Not Allowed` response is remapped to `201 Created`. -/
def mkcol (st : ClientState) (path : String) (tr : Transport) : Run Nat :=
  let (st', tr', as, out) := request st MethodMkcol (withLeadingSlash path) none [] tr
  match out with
  | .fail _ => ⟨st', tr', as, 400⟩
  | .ok res => if res.statusCode = 405 then ⟨st', tr', as, 201⟩ else ⟨st', tr', as, res.statusCode⟩

/-- client.go `Mkdir`. -/
def Mkdir (st : ClientState) (path : String) (tr : Transport) : Run (Option GoErr) :=
  let p := withSurroundingSlashes (pathClean path)
  let r := mkcol st p tr
  if r.val = 201 then ⟨r.st, r.tr, r.atts, none⟩
  else ⟨r.st, r.tr, r.atts, some (.pathStatus "Mkdir" p r.val)⟩

/-- The `for _, e := range segments` loop of `MkdirAll`: `sub` accumulates the
successively-longer prefix, empty segments are skipped, and the first prefix
whose `mkcol` is not `201` aborts with a path error naming that prefix. -/
def mkdirSegs : ClientState → List String → String → Transport → Run (Option GoErr)
  | st, [], _, tr => ⟨st, tr, [], none⟩
  | st, e :: rest, sub, tr =>
    if e = "" then mkdirSegs st rest sub tr
    else
      let sub' := sub ++ e ++ "/"
      let r := mkcol st sub' tr
      if r.val = 201 then
        let r2 := mkdirSegs r.st rest sub' r.tr
        ⟨r2.st, r2.tr, r.atts ++ r2.atts, r2.val⟩
      else ⟨r.st, r.tr, r.atts, some (.pathStatus "MkdirAll" sub' r.val)⟩

/-- client.go `MkdirAll`. -/
def MkdirAll (st : ClientState) (path : String) (tr : Transport) : Run (Option GoErr) :=
  let p := withSurroundingSlashes (pathClean path)
  let r := mkcol st p tr
  if r.val = 201 then ⟨r.st, r.tr, r.atts, none⟩
  else if r.val = 409 then
    let r2 := mkdirSegs r.st (strSplit p '/') "/" r.tr
    ⟨r2.st, r2.tr, r.atts ++ r2.atts, r2.val⟩
  else ⟨r.st, r.tr, r.atts, some (.pathStatus "MkdirAll" p r.val)⟩

/-- requests.go `createParentCollection`. -/
def createParentCollection (st : ClientState) (itemPath : String) (tr : Transport) :
    Run (Option GoErr) :=
  let parentPath := pathDir (withLeadingSlash itemPath)
  if parentPath = "." ∨ parentPath = "/" then ⟨st, tr, [], none⟩
  else MkdirAll st parentPath tr

/-- requests.go `copymove`.  The `409 Conflict` arm recurses after creating
the destination's parent collection; the recursion is general in Go, hence
the fuel.  The `207` arm only logs, so it falls through — like every other
unlisted status — to the final path error carrying the status code. -/
def copymove : Nat → ClientState → String → String → String → Bool → Transport →
    Run (Option GoErr)
  | 0, st, _, _, _, _, tr => ⟨st, tr, [], some (.transport "fuel exhausted")⟩
  | fuel + 1, st, method, oldpath0, newpath0, overwrite, tr =>
    let oldpath := withLeadingSlash oldpath0
    let newpath := withLeadingSlash newpath0
    let header := [("Destination", st.root ++ newpath),
                   ("Overwrite", if overwrite then "T" else "F")]
    let (st', tr', as, out) := request st method oldpath none header tr
    match out with
    | .fail e => ⟨st', tr', as, some (.pathWrap method oldpath e)⟩
    | .ok res =>
      if res.statusCode = 201 ∨ res.statusCode = 204 then ⟨st', tr', as, none⟩
      else if res.statusCode = 409 then
        let rp := createParentCollection st' newpath tr'
        match rp.val with
        | some e => ⟨rp.st, rp.tr, as ++ rp.atts, some e⟩
        | none =>
          let rc := copymove fuel rp.st method oldpath newpath overwrite rp.tr
          ⟨rc.st, rc.tr, as ++ rp.atts ++ rc.atts, rc.val⟩
      else ⟨st', tr', as, some (.pathStatus method oldpath res.statusCode)⟩

/-! ## utils.go `parseXML` and requests.go `propfind` -/

/-- utils.go `parseXML`: walk the token stream; each `response` element that
decodes is handed to the caller's handler (whose state `S` models the
mutable closure state of the Go callers); a handler error returns
immediately; a decode error skips the element. -/
def parseXML {S : Type} (handle : S → RespRec → S × Option GoErr) :
    S → List XmlItem → S × Option GoErr
  | s, [] => (s, none)
  | s, .otherTok :: rest => parseXML handle s rest
  | s, .respElem none :: rest => parseXML handle s rest
  | s, .respElem (some r) :: rest =>
    match handle s r with
    | (s', some e) => (s', some e)
    | (s', none) => parseXML handle s' rest

/-- client.go `requiredProperties` (inner whitespace elided). -/
def requiredProperties : String :=
  "<d:propfind xmlns:d='DAV:'><d:prop><d:displayname/><d:resourcetype/><d:getcontentlength/><d:getcontenttype/><d:getetag/><d:getlastmodified/></d:prop></d:propfind>"

/-- requests.go `propfind` (header-override version): `Depth` from `self`,
the fixed content negotiation headers, a non-207 status is a plain
formatted error, and a 207 body is streamed through `parseXML`. -/
def propfind {S : Type} (st : ClientState) (path0 : String) (self : Bool)
    (body : String) (handle : S → RespRec → S × Option GoErr) (s0 : S)
    (tr : Transport) : Run (S × Option GoErr) :=
  let path := withLeadingSlash path0
  let header := [("Depth", if self then "0" else "1"),
                 ("Content-Type", "application/xml;charset=UTF-8"),
                 ("Accept", "application/xml,text/xml"),
                 ("Accept-Charset", "utf-8")]
  let (st', tr', as, out) := request st MethodPropfind path (some body) header tr
  match out with
  | .fail e => ⟨st', tr', as, (s0, some e)⟩
  | .ok res =>
    if res.statusCode ≠ 207 then
      ⟨st', tr', as, (s0, some (.errMsg (res.statusLine ++ " - PROPFIND " ++ path)))⟩
    else
      let pr := parseXML handle s0 res.entries
      ⟨st', tr', as, pr⟩

/-! ## fileinfo.go `fileinfo` and client.go `getProps`, `Stat`, `ReadDir` -/

/-- fileinfo.go `fileinfo` (the modified time is Unix seconds; the Go zero
`time.Time` differs from `time.Unix(0,0)` but the source only ever stores
parsed times, `time.Unix(0,0)`, or the zero value into entries it also flags,
so seconds-since-epoch with `0` for both is faithful for the claims). -/
structure Fileinfo where
  path : String
  name : String
  contentType : String
  size : Int
  modified : Int
  etag : String
  isdir : Bool
deriving Repr, DecidableEq

/-- client.go `responseStatusOK`. -/
def responseStatusOK : String := " 200 "

/-- client.go `getProps`: the first propstat whose status contains the given
string. -/
def getProps (r : RespRec) (status : String) : Option PropsRec :=
  r.propstats.find? fun p => strContains p.status status

/-- The `parse` closure of client.go `Stat` (its captured `fi *fileinfo` is
the state). -/
def statParse (rfc1123 : String → Option Int) (path : String)
    (fi : Option Fileinfo) (r : RespRec) : Option Fileinfo × Option GoErr :=
  match getProps r responseStatusOK, fi with
  | some p, none =>
    if p.typeLocal = "collection" then
      (some ⟨withTrailingSlash path, p.name, p.contentType, 0, 0, p.etag, true⟩, none)
    else
      (some ⟨path, p.name, p.contentType, parseInt64 p.size,
             parseModified rfc1123 p.modified, p.etag, false⟩, none)
  | _, _ => (fi, none)

/-- client.go `Stat`: a self-only PROPFIND; a non-`*os.PathError` error is
wrapped with the operation and path; `fi` may remain `nil` with a `nil`
error. -/
def Stat (rfc1123 : String → Option Int) (st : ClientState) (path : String)
    (tr : Transport) : Run (Option Fileinfo × Option GoErr) :=
  let r := propfind st path true requiredProperties (statParse rfc1123 path) none tr
  match r.val with
  | (fi, none) => ⟨r.st, r.tr, r.atts, (fi, none)⟩
  | (fi, some e) =>
    if e.isPathError then ⟨r.st, r.tr, r.atts, (fi, some e)⟩
    else ⟨r.st, r.tr, r.atts, (fi, some (.pathWrap "Stat" path e))⟩

/-- The `parse` closure of client.go `ReadDir` (its captured `files` slice
and `skipSelf` flag are the state).  The first entry (the directory itself)
is consumed: if it does not carry a 200-propstat describing a collection the
whole listing aborts with a 405 path error; later entries with a
200-propstat become `Fileinfo` records. -/
def readDirParse (rfc1123 : String → Option Int) (path : String)
    (s : List Fileinfo × Bool) (r : RespRec) : (List Fileinfo × Bool) × Option GoErr :=
  let (files, skipSelf) := s
  if skipSelf then
    match getProps r responseStatusOK with
    | some p =>
      if p.typeLocal = "collection" then ((files, false), none)
      else ((files, false), some (.pathStatus "ReadDir" path 405))
    | none => ((files, false), some (.pathStatus "ReadDir" path 405))
  else
    match getProps r responseStatusOK with
    | some p =>
      let nm := match pathUnescape r.href with
        | some ps => pathBase ps
        | none => p.name
      let fi : Fileinfo :=
        if p.typeLocal = "collection" then
          ⟨path ++ nm ++ "/", nm, p.contentType, 0,
           parseModified rfc1123 p.modified, p.etag, true⟩
        else
          ⟨path ++ nm, nm, p.contentType, parseInt64 p.size,
           parseModified rfc1123 p.modified, p.etag, false⟩
      ((files ++ [fi], false), none)
    | none => ((files, false), none)

/-- client.go `ReadDir`: a depth-1 PROPFIND over the surrounding-slashed
path; a non-`*os.PathError` error is wrapped; the files collected so far are
returned even on error. -/
def ReadDir (rfc1123 : String → Option Int) (st : ClientState) (path0 : String)
    (tr : Transport) : Run (List Fileinfo × Option GoErr) :=
  let path := withSurroundingSlashes path0
  let r := propfind st path false requiredProperties (readDirParse rfc1123 path)
    ([], true) tr
  match r.val with
  | ((files, _), none) => ⟨r.st, r.tr, r.atts, (files, none)⟩
  | ((files, _), some e) =>
    if e.isPathError then ⟨r.st, r.tr, r.atts, (files, some e)⟩
    else ⟨r.st, r.tr, r.atts, (files, some (.pathWrap "ReadDir" path e))⟩

/-! ## Spec-side definitions

These follow the wording of the specification (not the source); the claim
theorems compare the source-translated functions above against them. -/

/-- Spec-side (claim C7): the multistatus entries that decode successfully,
in stream order. -/
def decodedRecs (items : List XmlItem) : List RespRec :=
  items.filterMap fun i =>
    match i with
    | .respElem (some r) => some r
    | _ => none

/-- Spec-side (claim C7): invoke the handler once per entry, in order,
stopping at (and returning) the first handler error. -/
def runHandler {S : Type} (handle : S → RespRec → S × Option GoErr) :
    S → List RespRec → S × Option GoErr
  | s, [] => (s, none)
  | s, r :: rest =>
    match handle s r with
    | (s', some e) => (s', some e)
    | (s', none) => runHandler handle s' rest

/-- Spec-side (claim C5): the successively-longer prefixes obtained from the
non-empty segments of a path, each ending in `/`, starting from `sub`. -/
def subPathsAux : String → List String → List String
  | _, [] => []
  | sub, e :: rest =>
    if e = "" then subPathsAux sub rest
    else (sub ++ e ++ "/") :: subPathsAux (sub ++ e ++ "/") rest

/-- Spec-side (claim C5): the successively-longer prefixes of a path. -/
def subPaths (p : String) : List String := subPathsAux "/" (strSplit p '/')

/-- Spec-side (claim C5): walk the prefixes against the list of MKCOL
statuses the server will answer; return the prefixes actually attempted and
the outcome — `none` if every attempted prefix creation returned `201`, or
the path error naming the first prefix whose creation did not (an exhausted
status list acts as the transport failure, which `mkcol` reports as `400`). -/
def prefixPhase : List String → List Nat → List String × Option GoErr
  | [], _ => ([], none)
  | sPath :: subs, s :: sts =>
    if s = 201 then
      let (ps, r) := prefixPhase subs sts
      (sPath :: ps, r)
    else ([sPath], some (.pathStatus "MkdirAll" sPath s))
  | sPath :: _, [] => ([sPath], some (.pathStatus "MkdirAll" sPath 400))

/-- A transport oracle answering the given status codes (no bodies, no
challenge headers). -/
def okTr (sts : List Nat) : Transport :=
  sts.map fun s => .ok ⟨s, "", "", []⟩

/-! ## Helper lemmas about the request pipeline -/

/-- No Authenticator in the source has `Type() == "noAuth"`: the `noAuth`
variant returns `"NoAuth"` (capital N, capital A) and the others return
`"Basic"` / `"Digest"`.  Hence the upgrade branch of `client.request` can
never fire. -/
theorem authType_ne_noAuth (a : Authenticator) : ¬ a.type = "noAuth" := by
  cases a <;> simp only [Authenticator.type] <;> decide

theorem requestGo_ok (n : Nat) (st : ClientState) (m p : String) (b : Option String)
    (h : List (String × String)) (res : HttpResponse) (rest : Transport)
    (hne : ¬ res.statusCode = 401) :
    requestGo (n + 1) st m p b h (.ok res :: rest) =
      (st, rest, [⟨m, st.root ++ pathEscape p, p, b, h, st.auth.type⟩], .ok res) := by
  simp [requestGo, doTransport, hne]

theorem requestGo_401 (n : Nat) (st : ClientState) (m p : String) (b : Option String)
    (h : List (String × String)) (res : HttpResponse) (rest : Transport)
    (h401 : res.statusCode = 401) :
    requestGo (n + 1) st m p b h (.ok res :: rest) =
      (st, rest, [⟨m, st.root ++ pathEscape p, p, b, h, st.auth.type⟩],
        .fail (.pathStatus "Authorize" st.root 401)) := by
  simp [requestGo, doTransport, h401, authType_ne_noAuth]

theorem requestGo_err (n : Nat) (st : ClientState) (m p : String) (b : Option String)
    (h : List (String × String)) (e : String) (rest : Transport) :
    requestGo (n + 1) st m p b h (.error e :: rest) =
      (st, rest, [⟨m, st.root ++ pathEscape p, p, b, h, st.auth.type⟩],
        .fail (.transport e)) := by
  simp [requestGo, doTransport]

theorem requestGo_nil (n : Nat) (st : ClientState) (m p : String) (b : Option String)
    (h : List (String × String)) :
    requestGo (n + 1) st m p b h [] =
      (st, [], [⟨m, st.root ++ pathEscape p, p, b, h, st.auth.type⟩],
        .fail (.transport "transport: no response")) := by
  simp [requestGo, doTransport]

theorem request_ok (st : ClientState) (m p : String) (b : Option String)
    (h : List (String × String)) (res : HttpResponse) (rest : Transport)
    (hne : ¬ res.statusCode = 401) :
    request st m p b h (.ok res :: rest) =
      (st, rest, [⟨m, st.root ++ pathEscape p, p, b, h, st.auth.type⟩], .ok res) :=
  requestGo_ok _ st m p b h res rest hne

theorem request_401 (st : ClientState) (m p : String) (b : Option String)
    (h : List (String × String)) (res : HttpResponse) (rest : Transport)
    (h401 : res.statusCode = 401) :
    request st m p b h (.ok res :: rest) =
      (st, rest, [⟨m, st.root ++ pathEscape p, p, b, h, st.auth.type⟩],
        .fail (.pathStatus "Authorize" st.root 401)) :=
  requestGo_401 _ st m p b h res rest h401

theorem request_err (st : ClientState) (m p : String) (b : Option String)
    (h : List (String × String)) (e : String) (rest : Transport) :
    request st m p b h (.error e :: rest) =
      (st, rest, [⟨m, st.root ++ pathEscape p, p, b, h, st.auth.type⟩],
        .fail (.transport e)) :=
  requestGo_err _ st m p b h e rest

theorem request_nil (st : ClientState) (m p : String) (b : Option String)
    (h : List (String × String)) :
    request st m p b h [] =
      (st, [], [⟨m, st.root ++ pathEscape p, p, b, h, st.auth.type⟩],
        .fail (.transport "transport: no response")) :=
  requestGo_nil _ st m p b h

/-! ## Claim C1 -/

/-- Claim C1 (code evaluated at the claim's own scenario): a request made with
the Anonymous/Deferred authenticator that receives a 401 whose
`WWW-Authenticate` header plainly advertises `Digest` does **not** install an
upgraded Authenticator and does **not** re-invoke the pipeline: the guard in
`client.request` compares `auth.Type()` against the literal `"noAuth"`, but
the `noAuth` variant's `Type()` returns `"NoAuth"`, so the upgrade branch is
unreachable and the call returns the terminal `Authorize` path error after
exactly one physical attempt, with the client's Authenticator unchanged. -/
theorem noAuth_401_no_upgrade_no_retry :
    request (NewClient "http://h" (.noAuth "u" "pw")) "GET" "/f" none []
        [.ok ⟨401, "401 Unauthorized", "Digest realm=\"r\", nonce=\"abc\", qop=\"auth\"", []⟩] =
      (NewClient "http://h" (.noAuth "u" "pw"), [],
       [⟨"GET", "http://h/f", "/f", none, [], "NoAuth"⟩],
       .fail (.pathStatus "Authorize" "http://h" 401)) := by
  decide

/-! ## Claim C2 -/

/-- Claim C2: a request whose Authenticator snapshot is already of Basic or
Digest type and that receives a 401 returns the terminal `Authorize` path
error carrying status 401, installs no new Authenticator (the client state is
returned unchanged), and issues exactly one physical attempt (no retry). -/
theorem upgraded_401_terminal (st : ClientState) (m p : String) (b : Option String)
    (h : List (String × String)) (res : HttpResponse) (rest : Transport)
    (hAuth : st.auth.type = "Basic" ∨ st.auth.type = "Digest")
    (h401 : res.statusCode = 401) :
    request st m p b h (.ok res :: rest) =
      (st, rest, [⟨m, st.root ++ pathEscape p, p, b, h, st.auth.type⟩],
        .fail (.pathStatus "Authorize" st.root 401)) :=
  request_401 st m p b h res rest h401

/-- Witness for C2 at a concrete Basic client and a concrete 401 response. -/
theorem upgraded_401_terminal_witness :
    request (NewClient "http://h" (.basicAuth "u" "pw")) "GET" "/f" none []
        [.ok ⟨401, "401 Unauthorized", "Basic realm=\"r\"", []⟩] =
      (NewClient "http://h" (.basicAuth "u" "pw"), [],
       [⟨"GET", "http://h/f", "/f", none, [], "Basic"⟩],
       .fail (.pathStatus "Authorize" "http://h" 401)) :=
  upgraded_401_terminal (NewClient "http://h" (.basicAuth "u" "pw")) "GET" "/f" none []
    ⟨401, "401 Unauthorized", "Basic realm=\"r\"", []⟩ [] (Or.inl rfl) rfl

/-! ## Claim C3 -/

/-- A fixed 16-hex-char client nonce standing for one draw of `getCnonce()`. -/
def cnEx : String := "0a1b2c3d4e5f6071"

/-- A challenge-parameter mapping with neither `algorithm` nor `qop` set. -/
def dBase : List (String × String) :=
  [("username", "u"), ("realm", "r"), ("password", "p"),
   ("method", "GET"), ("uri", "/x"), ("nonce", "n")]

/-- `dBase` with the multi-valued qop a real server may send. -/
def dQopOther : List (String × String) := dBase ++ [("qop", "auth,auth-int")]

def dSessEx : List (String × String) := dBase ++ [("algorithm", "MD5-sess")]
def dAuthEx : List (String × String) := dBase ++ [("qop", "auth")]
def dIntEx : List (String × String) := dBase ++ [("qop", "auth-int"), ("entityBody", "B")]

/-- Counterexample to claim C3 as stated: for the challenge mapping whose
`qop` is `"auth,auth-int"` (non-empty, so the claim's "otherwise" clause
applies), the engine's response is **not**
`md5(HA1:nonce:nonceCount:clientNonce:qop:HA2)` — the `response` switch only
covers `"auth"` and `"auth-int"`, so any other non-empty qop leaves the
response as the empty string. -/
theorem digest_qop_other_response_cex :
    ¬ (digestResponse dQopOther cnEx =
        md5 (digestHa1 dQopOther cnEx ++ ":" ++ dget dQopOther "nonce" ++ ":1:"
          ++ cnEx ++ ":" ++ dget dQopOther "qop" ++ ":" ++ digestHa2 dQopOther)) := by
  decide

/-- Claim C3, amended: the claimed HA1/HA2 equations hold, and the claimed
response equations hold with the "otherwise" clause narrowed to
`qop ∈ {auth, auth-int}`; any other non-empty qop yields an empty response.
`nonceCount` is the literal `1` everywhere (the `:1:` fragments). -/
theorem digest_engine_amended (d : List (String × String)) (cnonce : String) :
    ((dget d "algorithm" = "MD5" ∨ dget d "algorithm" = "") →
      digestHa1 d cnonce =
        md5 (dget d "username" ++ ":" ++ dget d "realm" ++ ":" ++ dget d "password")) ∧
    (dget d "algorithm" = "MD5-sess" →
      digestHa1 d cnonce =
        md5 (md5 (dget d "username" ++ ":" ++ dget d "realm" ++ ":" ++ dget d "password")
          ++ ":1:" ++ cnonce)) ∧
    ((dget d "qop" = "auth" ∨ dget d "qop" = "") →
      digestHa2 d = md5 (dget d "method" ++ ":" ++ dget d "uri")) ∧
    (dget d "qop" = "auth-int" → dget d "entityBody" ≠ "" →
      digestHa2 d =
        md5 (dget d "method" ++ ":" ++ dget d "uri" ++ ":" ++ md5 (dget d "entityBody"))) ∧
    (dget d "qop" = "" →
      digestResponse d cnonce =
        md5 (digestHa1 d cnonce ++ ":" ++ dget d "nonce" ++ ":" ++ digestHa2 d)) ∧
    ((dget d "qop" = "auth" ∨ dget d "qop" = "auth-int") →
      digestResponse d cnonce =
        md5 (digestHa1 d cnonce ++ ":" ++ dget d "nonce" ++ ":1:" ++ cnonce ++ ":"
          ++ dget d "qop" ++ ":" ++ digestHa2 d)) ∧
    (dget d "qop" ≠ "" → dget d "qop" ≠ "auth" → dget d "qop" ≠ "auth-int" →
      digestResponse d cnonce = "") := by
  refine ⟨?_, ?_, ?_, ?_, ?_, ?_, ?_⟩
  · intro hAlg
    simp only [digestHa1]
    rw [if_pos hAlg]
  · intro hAlg
    simp only [digestHa1, hAlg]
    rw [if_neg (by decide), if_pos trivial]
  · intro hQop
    simp only [digestHa2]
    rw [if_pos hQop]
  · intro hQop hB
    simp only [digestHa2, hQop]
    rw [if_neg (by decide), if_pos trivial, if_pos hB]
  · intro hQop
    simp only [digestResponse]
    rw [if_pos hQop]
  · rintro (hQop | hQop) <;> simp only [digestResponse, hQop] <;>
      rw [if_neg (by decide), if_pos (by decide)]
  · intro h1 h2 h3
    simp only [digestResponse]
    rw [if_neg h1, if_neg (fun hc => hc.elim h2 h3)]

/-- Witness for the amended C3: each clause applied at a concrete mapping. -/
theorem digest_engine_amended_witness :
    digestHa1 dBase cnEx = md5 "u:r:p" ∧
    digestHa1 dSessEx cnEx = md5 (md5 "u:r:p" ++ ":1:" ++ cnEx) ∧
    digestHa2 dBase = md5 "GET:/x" ∧
    digestHa2 dIntEx = md5 ("GET:/x:" ++ md5 "B") ∧
    digestResponse dBase cnEx = md5 (digestHa1 dBase cnEx ++ ":n:" ++ digestHa2 dBase) ∧
    digestResponse dAuthEx cnEx =
      md5 (digestHa1 dAuthEx cnEx ++ ":n:1:" ++ cnEx ++ ":auth:" ++ digestHa2 dAuthEx) ∧
    digestResponse dQopOther cnEx = "" :=
  ⟨(digest_engine_amended dBase cnEx).1 (Or.inr rfl),
   (digest_engine_amended dSessEx cnEx).2.1 rfl,
   (digest_engine_amended dBase cnEx).2.2.1 (Or.inr rfl),
   (digest_engine_amended dIntEx cnEx).2.2.2.1 rfl (by decide),
   (digest_engine_amended dBase cnEx).2.2.2.2.1 rfl,
   (digest_engine_amended dAuthEx cnEx).2.2.2.2.2.1 (Or.inl rfl),
   (digest_engine_amended dQopOther cnEx).2.2.2.2.2.2 (by decide) (by decide) (by decide)⟩

/-! ## Helper lemmas about `mkcol` -/

/-- The physical MKCOL attempt `mkcol` issues for a path. -/
def mkAtt (st : ClientState) (p : String) : Attempt :=
  ⟨MethodMkcol, st.root ++ pathEscape (withLeadingSlash p), withLeadingSlash p,
   none, [], st.auth.type⟩

/-- `Mkdir`/`MkdirAll` normalise their argument to a cleaned path with
surrounding slashes before calling `mkcol`. -/
def cleanedPath (p : String) : String := withSurroundingSlashes (pathClean p)

theorem mkcol_eq_ok (st : ClientState) (p : String) (res : HttpResponse)
    (rest : Transport) (hne : ¬ res.statusCode = 401) :
    mkcol st p (.ok res :: rest) =
      ⟨st, rest, [mkAtt st p], if res.statusCode = 405 then 201 else res.statusCode⟩ := by
  simp only [mkcol, request_ok st MethodMkcol (withLeadingSlash p) none [] res rest hne,
    mkAtt]
  split <;> rfl

theorem mkcol_eq_401 (st : ClientState) (p : String) (res : HttpResponse)
    (rest : Transport) (h401 : res.statusCode = 401) :
    mkcol st p (.ok res :: rest) = ⟨st, rest, [mkAtt st p], 400⟩ := by
  simp only [mkcol, request_401 st MethodMkcol (withLeadingSlash p) none [] res rest h401,
    mkAtt]

theorem mkcol_eq_err (st : ClientState) (p : String) (e : String) (rest : Transport) :
    mkcol st p (.error e :: rest) = ⟨st, rest, [mkAtt st p], 400⟩ := by
  simp only [mkcol, request_err st MethodMkcol (withLeadingSlash p) none [] e rest, mkAtt]

theorem mkcol_eq_nil (st : ClientState) (p : String) :
    mkcol st p [] = ⟨st, [], [mkAtt st p], 400⟩ := by
  simp only [mkcol, request_nil st MethodMkcol (withLeadingSlash p) none [], mkAtt]

/-! ## Claim C4 -/

/-- Counterexample to claim C4 as stated: a `401` response to MKCOL does not
produce a path error carrying the literal status `401` — `request` turns the
401 into an error and `mkcol` collapses every request error to `400`, so the
path error carries `400`. -/
theorem mkdir_401_cex :
    (Mkdir (NewClient "http://h" (.basicAuth "u" "pw")) "d"
        [.ok ⟨401, "401 Unauthorized", "", []⟩]).val =
      some (.pathStatus "Mkdir" "/d/" 400) ∧
    ¬ (Mkdir (NewClient "http://h" (.basicAuth "u" "pw")) "d"
        [.ok ⟨401, "401 Unauthorized", "", []⟩]).val =
      some (.pathStatus "Mkdir" "/d/" 401) := by
  decide

/-- Claim C4, amended: `Mkdir` succeeds on `201`, succeeds on `405`
(remapped), reports a `401` response as a path error carrying `400` (the
authorization path error from the request layer is collapsed to `400` by
`mkcol`), and for any other response status returns a path error carrying
that literal status code. -/
theorem mkdir_status_amended (st : ClientState) (path : String)
    (res : HttpResponse) (rest : Transport) :
    (res.statusCode = 201 →
      Mkdir st path (.ok res :: rest) = ⟨st, rest, [mkAtt st (cleanedPath path)], none⟩) ∧
    (res.statusCode = 405 →
      Mkdir st path (.ok res :: rest) = ⟨st, rest, [mkAtt st (cleanedPath path)], none⟩) ∧
    (res.statusCode = 401 →
      Mkdir st path (.ok res :: rest) =
        ⟨st, rest, [mkAtt st (cleanedPath path)],
         some (.pathStatus "Mkdir" (cleanedPath path) 400)⟩) ∧
    (¬ res.statusCode = 201 → ¬ res.statusCode = 405 → ¬ res.statusCode = 401 →
      Mkdir st path (.ok res :: rest) =
        ⟨st, rest, [mkAtt st (cleanedPath path)],
         some (.pathStatus "Mkdir" (cleanedPath path) res.statusCode)⟩) := by
  refine ⟨?_, ?_, ?_, ?_⟩
  · intro h201
    have hne : ¬ res.statusCode = 401 := by rw [h201]; decide
    simp [Mkdir, cleanedPath, mkcol_eq_ok st _ res rest hne, h201]
  · intro h405
    have hne : ¬ res.statusCode = 401 := by rw [h405]; decide
    simp [Mkdir, cleanedPath, mkcol_eq_ok st _ res rest hne, h405]
  · intro h401
    simp [Mkdir, cleanedPath, mkcol_eq_401 st _ res rest h401]
  · intro h201 h405 h401
    simp [Mkdir, cleanedPath, mkcol_eq_ok st _ res rest h401, h201, h405]

/-- Witness for the amended C4 at a concrete client: a `503` response yields
the path error carrying the literal `503`. -/
theorem mkdir_status_amended_witness :
    Mkdir (NewClient "http://h" (.basicAuth "u" "pw")) "d"
        [.ok ⟨503, "503 Service Unavailable", "", []⟩] =
      ⟨NewClient "http://h" (.basicAuth "u" "pw"), [],
       [mkAtt (NewClient "http://h" (.basicAuth "u" "pw")) "/d/"],
       some (.pathStatus "Mkdir" "/d/" 503)⟩ :=
  (mkdir_status_amended (NewClient "http://h" (.basicAuth "u" "pw")) "d"
      ⟨503, "503 Service Unavailable", "", []⟩ []).2.2.2
    (by decide) (by decide) (by decide)

/-! ## Claim C5 -/


/-- `mkcol` against a response whose status is neither 401 nor 405 returns
that literal status. -/
theorem mkcol_eq_plain (st : ClientState) (p : String) (res : HttpResponse)
    (rest : Transport) (hne : ¬ res.statusCode = 401) (hne405 : ¬ res.statusCode = 405) :
    mkcol st p (.ok res :: rest) = ⟨st, rest, [mkAtt st p], res.statusCode⟩ := by
  rw [mkcol_eq_ok st p res rest hne, if_neg hne405]

/-- The segment loop of `MkdirAll`, run against a transport answering the
status codes `sts` in order (none of them `401`/`405`, which `mkcol` would
remap), behaves exactly as the spec-side `prefixPhase` walk over the
successively-longer prefixes: it issues one MKCOL per attempted prefix, in
order, and stops with a path error naming the first prefix whose creation
did not return `201`. -/
theorem mkdirSegs_phase (segs : List String) :
    ∀ (sub : String) (sts : List Nat) (st : ClientState),
    (∀ s ∈ sts, ¬ s = 401 ∧ ¬ s = 405) →
    mkdirSegs st segs sub (okTr sts) =
      ⟨st, (okTr sts).drop (prefixPhase (subPathsAux sub segs) sts).1.length,
       (prefixPhase (subPathsAux sub segs) sts).1.map fun q => mkAtt st q,
       (prefixPhase (subPathsAux sub segs) sts).2⟩ := by
  induction segs with
  | nil =>
    intro sub sts st _
    simp [mkdirSegs, subPathsAux, prefixPhase]
  | cons e rest ih =>
    intro sub sts st hsts
    by_cases he : e = ""
    · subst he
      simp only [mkdirSegs, subPathsAux, if_pos rfl]
      exact ih sub sts st hsts
    · cases sts with
      | nil =>
        have h0 : okTr ([] : List Nat) = ([] : Transport) := rfl
        rw [h0]
        simp only [mkdirSegs, if_neg he]
        rw [mkcol_eq_nil st (sub ++ e ++ "/")]
        simp [subPathsAux, he, prefixPhase]
      | cons s sts' =>
        have hOk : okTr (s :: sts') = .ok ⟨s, "", "", []⟩ :: okTr sts' := rfl
        have hs := hsts s (List.mem_cons_self s sts')
        rw [hOk]
        simp only [mkdirSegs, if_neg he]
        rw [mkcol_eq_plain st (sub ++ e ++ "/") ⟨s, "", "", []⟩ (okTr sts') hs.1 hs.2]
        by_cases h201 : s = 201
        · subst h201
          rw [ih (sub ++ e ++ "/") sts' st (fun x hx => hsts x (List.mem_cons_of_mem _ hx))]
          simp [subPathsAux, he, prefixPhase]
        · simp [subPathsAux, he, prefixPhase, h201]

/-- Claim C5: `MkdirAll` first issues MKCOL on the full (cleaned,
surrounding-slashed) path and is done on `201`; on `409` it walks the
successively-longer prefixes of the non-empty segments in order, one MKCOL
each, failing fast with a path error naming the first prefix whose creation
did not return `201` (the spec-side `prefixPhase`); and for `/a/b/c` against
a server with no existing collections the prefix phase issues exactly the
three MKCOL calls `/a/`, `/a/b/`, `/a/b/c/`. -/
theorem mkdirAll_prefix_walk :
    (∀ (st : ClientState) (path : String) (res : HttpResponse) (rest : Transport),
      res.statusCode = 201 →
      MkdirAll st path (.ok res :: rest) =
        ⟨st, rest, [mkAtt st (cleanedPath path)], none⟩) ∧
    (∀ (st : ClientState) (path : String) (r409 : HttpResponse) (sts : List Nat),
      r409.statusCode = 409 →
      (∀ s ∈ sts, ¬ s = 401 ∧ ¬ s = 405) →
      MkdirAll st path (.ok r409 :: okTr sts) =
        ⟨st, (okTr sts).drop (prefixPhase (subPaths (cleanedPath path)) sts).1.length,
         mkAtt st (cleanedPath path) ::
           ((prefixPhase (subPaths (cleanedPath path)) sts).1.map fun q => mkAtt st q),
         (prefixPhase (subPaths (cleanedPath path)) sts).2⟩) ∧
    subPaths "/a/b/c/" = ["/a/", "/a/b/", "/a/b/c/"] ∧
    MkdirAll (NewClient "http://h" (.basicAuth "u" "pw")) "/a/b/c"
        (okTr [409, 201, 201, 201]) =
      ⟨NewClient "http://h" (.basicAuth "u" "pw"), [],
       [⟨"MKCOL", "http://h/a/b/c/", "/a/b/c/", none, [], "Basic"⟩,
        ⟨"MKCOL", "http://h/a/", "/a/", none, [], "Basic"⟩,
        ⟨"MKCOL", "http://h/a/b/", "/a/b/", none, [], "Basic"⟩,
        ⟨"MKCOL", "http://h/a/b/c/", "/a/b/c/", none, [], "Basic"⟩], none⟩ := by
  refine ⟨?_, ?_, by decide, by decide⟩
  · intro st path res rest h201
    have hne : ¬ res.statusCode = 401 := by rw [h201]; decide
    have hne405 : ¬ res.statusCode = 405 := by rw [h201]; decide
    simp only [MkdirAll, cleanedPath,
      mkcol_eq_plain st _ res rest hne hne405, h201]
    simp
  · intro st path r409 sts h409 hsts
    have hne : ¬ r409.statusCode = 401 := by rw [h409]; decide
    have hne405 : ¬ r409.statusCode = 405 := by rw [h409]; decide
    simp only [MkdirAll, cleanedPath,
      mkcol_eq_plain st _ r409 (okTr sts) hne hne405, h409]
    rw [mkdirSegs_phase _ "/" sts st hsts]
    simp [subPaths]

/-- Witness for C5: the success arm at `201`, and the 409 arm whose single
prefix `/a/` fails with `503` and is named in the path error. -/
theorem mkdirAll_prefix_walk_witness :
    MkdirAll (NewClient "http://h" (.basicAuth "u" "pw")) "x" [.ok ⟨201, "", "", []⟩] =
      ⟨NewClient "http://h" (.basicAuth "u" "pw"), [],
       [⟨"MKCOL", "http://h/x/", "/x/", none, [], "Basic"⟩], none⟩ ∧
    MkdirAll (NewClient "http://h" (.basicAuth "u" "pw")) "/a"
        (.ok ⟨409, "", "", []⟩ :: okTr [503]) =
      ⟨NewClient "http://h" (.basicAuth "u" "pw"), [],
       [⟨"MKCOL", "http://h/a/", "/a/", none, [], "Basic"⟩,
        ⟨"MKCOL", "http://h/a/", "/a/", none, [], "Basic"⟩],
       some (.pathStatus "MkdirAll" "/a/" 503)⟩ :=
  ⟨mkdirAll_prefix_walk.1 (NewClient "http://h" (.basicAuth "u" "pw")) "x"
      ⟨201, "", "", []⟩ [] rfl,
   mkdirAll_prefix_walk.2.1 (NewClient "http://h" (.basicAuth "u" "pw")) "/a"
      ⟨409, "", "", []⟩ [503] rfl (by decide)⟩

/-! ## Claim C6 -/

/-- The physical COPY/MOVE attempt `copymove` issues. -/
def cmAtt (st : ClientState) (method oldpath0 newpath0 : String) (ow : Bool) : Attempt :=
  ⟨method, st.root ++ pathEscape (withLeadingSlash oldpath0), withLeadingSlash oldpath0,
   none,
   [("Destination", st.root ++ withLeadingSlash newpath0),
    ("Overwrite", if ow then "T" else "F")],
   st.auth.type⟩

/-- Counterexample to claim C6 as stated: with the destination `/new` (whose
parent is `/`, so parent creation is a vacuous success) and a server that
answers the first two COPY attempts with `409` and the third with `201`, the
operation retries the conflicting copy **twice** — three COPY attempts in
total — and still succeeds, so the retry is not bounded to "exactly once
more" and a parent-collection-creation failure is not what bounds it. -/
theorem copymove_second_retry_cex :
    ((copymove 5 (NewClient "http://h" (.basicAuth "u" "pw")) "COPY" "/old" "/new" true
        (okTr [409, 409, 201])).atts.map Attempt.method = ["COPY", "COPY", "COPY"]) ∧
    (copymove 5 (NewClient "http://h" (.basicAuth "u" "pw")) "COPY" "/old" "/new" true
        (okTr [409, 409, 201])).val = none ∧
    ¬ ((copymove 5 (NewClient "http://h" (.basicAuth "u" "pw")) "COPY" "/old" "/new" true
        (okTr [409, 409, 201])).atts.length ≤ 2) := by
  decide

/-- Claim C6, amended: a `201` or `204` response is success (one attempt);
a `409` response causes the destination's parent collection to be created
recursively and, if that parent creation fails, its error is returned with
no retry of the copy/move; if it succeeds, the same copy/move is re-invoked
once at this level on the remaining transport — but a retry that again
returns `409` triggers a further parent-creation-and-retry round, so the
recursion is *not* bounded to exactly one retry overall.  The spec's worked
scenario (409, parent created, retried copy 201) does succeed with a single
retry. -/
theorem copymove_conflict_amended :
    (∀ (fuel : Nat) (st : ClientState) (m o nw : String) (ow : Bool)
        (res : HttpResponse) (rest : Transport),
      res.statusCode = 201 ∨ res.statusCode = 204 →
      copymove (fuel + 1) st m o nw ow (.ok res :: rest) =
        ⟨st, rest, [cmAtt st m o nw ow], none⟩) ∧
    (∀ (fuel : Nat) (st : ClientState) (m o nw : String) (ow : Bool)
        (res : HttpResponse) (rest : Transport) (e : GoErr),
      res.statusCode = 409 →
      (createParentCollection st (withLeadingSlash nw) rest).val = some e →
      copymove (fuel + 1) st m o nw ow (.ok res :: rest) =
        ⟨(createParentCollection st (withLeadingSlash nw) rest).st,
         (createParentCollection st (withLeadingSlash nw) rest).tr,
         cmAtt st m o nw ow :: (createParentCollection st (withLeadingSlash nw) rest).atts,
         some e⟩) ∧
    (∀ (fuel : Nat) (st : ClientState) (m o nw : String) (ow : Bool)
        (res : HttpResponse) (rest : Transport),
      res.statusCode = 409 →
      (createParentCollection st (withLeadingSlash nw) rest).val = none →
      copymove (fuel + 1) st m o nw ow (.ok res :: rest) =
        ⟨(copymove fuel (createParentCollection st (withLeadingSlash nw) rest).st m
            (withLeadingSlash o) (withLeadingSlash nw) ow
            (createParentCollection st (withLeadingSlash nw) rest).tr).st,
         (copymove fuel (createParentCollection st (withLeadingSlash nw) rest).st m
            (withLeadingSlash o) (withLeadingSlash nw) ow
            (createParentCollection st (withLeadingSlash nw) rest).tr).tr,
         cmAtt st m o nw ow ::
           (createParentCollection st (withLeadingSlash nw) rest).atts ++
           (copymove fuel (createParentCollection st (withLeadingSlash nw) rest).st m
              (withLeadingSlash o) (withLeadingSlash nw) ow
              (createParentCollection st (withLeadingSlash nw) rest).tr).atts,
         (copymove fuel (createParentCollection st (withLeadingSlash nw) rest).st m
            (withLeadingSlash o) (withLeadingSlash nw) ow
            (createParentCollection st (withLeadingSlash nw) rest).tr).val⟩) ∧
    (((copymove 5 (NewClient "http://h" (.basicAuth "u" "pw")) "COPY" "/old" "/p/new" true
        (okTr [409, 201, 201])).atts.map Attempt.method = ["COPY", "MKCOL", "COPY"]) ∧
     (copymove 5 (NewClient "http://h" (.basicAuth "u" "pw")) "COPY" "/old" "/p/new" true
        (okTr [409, 201, 201])).val = none) := by
  refine ⟨?_, ?_, ?_, by decide⟩
  · intro fuel st m o nw ow res rest h
    have hne : ¬ res.statusCode = 401 := by rcases h with h | h <;> rw [h] <;> decide
    simp only [copymove]
    rw [request_ok _ _ _ _ _ _ _ hne]
    rcases h with h | h <;> simp [cmAtt, h]
  · intro fuel st m o nw ow res rest e h409 hp
    have hne : ¬ res.statusCode = 401 := by rw [h409]; decide
    simp only [copymove]
    rw [request_ok _ _ _ _ _ _ _ hne]
    simp [cmAtt, h409, hp]
  · intro fuel st m o nw ow res rest h409 hp
    have hne : ¬ res.statusCode = 401 := by rw [h409]; decide
    simp only [copymove]
    rw [request_ok _ _ _ _ _ _ _ hne]
    simp [cmAtt, h409, hp]

/-- Witness for the amended C6: success at `201`; terminal parent-creation
failure at `409` (the `MkdirAll` error surfaces, no COPY retry); and the
vacuous-parent retry equation at `409` for a destination directly under the
root. -/
theorem copymove_conflict_amended_witness :
    copymove 2 (NewClient "http://h" (.basicAuth "u" "pw")) "COPY" "/old" "/p/new" true
        [.ok ⟨201, "", "", []⟩] =
      ⟨NewClient "http://h" (.basicAuth "u" "pw"), [],
       [⟨"COPY", "http://h/old", "/old", none,
         [("Destination", "http://h/p/new"), ("Overwrite", "T")], "Basic"⟩], none⟩ ∧
    copymove 2 (NewClient "http://h" (.basicAuth "u" "pw")) "COPY" "/old" "/p/new" true
        (.ok ⟨409, "", "", []⟩ :: okTr [503]) =
      ⟨NewClient "http://h" (.basicAuth "u" "pw"), [],
       [⟨"COPY", "http://h/old", "/old", none,
         [("Destination", "http://h/p/new"), ("Overwrite", "T")], "Basic"⟩,
        ⟨"MKCOL", "http://h/p/", "/p/", none, [], "Basic"⟩],
       some (.pathStatus "MkdirAll" "/p/" 503)⟩ ∧
    copymove 2 (NewClient "http://h" (.basicAuth "u" "pw")) "COPY" "/old" "/new" true
        (.ok ⟨409, "", "", []⟩ :: okTr [201]) =
      ⟨NewClient "http://h" (.basicAuth "u" "pw"), [],
       [⟨"COPY", "http://h/old", "/old", none,
         [("Destination", "http://h/new"), ("Overwrite", "T")], "Basic"⟩,
        ⟨"COPY", "http://h/old", "/old", none,
         [("Destination", "http://h/new"), ("Overwrite", "T")], "Basic"⟩], none⟩ :=
  ⟨copymove_conflict_amended.1 1 (NewClient "http://h" (.basicAuth "u" "pw"))
      "COPY" "/old" "/p/new" true ⟨201, "", "", []⟩ [] (Or.inl rfl),
   copymove_conflict_amended.2.1 1 (NewClient "http://h" (.basicAuth "u" "pw"))
      "COPY" "/old" "/p/new" true ⟨409, "", "", []⟩ (okTr [503])
      (.pathStatus "MkdirAll" "/p/" 503) rfl (by decide),
   copymove_conflict_amended.2.2.1 1 (NewClient "http://h" (.basicAuth "u" "pw"))
      "COPY" "/old" "/new" true ⟨409, "", "", []⟩ (okTr [201]) rfl (by decide)⟩

/-! ## Claim C7 -/

/-- Claim C7: the streaming parser equals the spec-side description — the
handler is invoked once per successfully-decoded `response` element, in
stream order; a handler error stops parsing immediately and is the parser's
result; an element whose decode fails is skipped and parsing continues. -/
theorem parseXML_handler_stream {S : Type} (handle : S → RespRec → S × Option GoErr)
    (s : S) (items : List XmlItem) :
    parseXML handle s items = runHandler handle s (decodedRecs items) := by
  induction items generalizing s with
  | nil => rfl
  | cons i rest ih =>
    cases i with
    | otherTok =>
      simp only [parseXML]
      rw [ih, show decodedRecs (XmlItem.otherTok :: rest) = decodedRecs rest from by
        simp [decodedRecs]]
    | respElem dec =>
      cases dec with
      | none =>
        simp only [parseXML]
        rw [ih, show decodedRecs (XmlItem.respElem none :: rest) = decodedRecs rest from by
          simp [decodedRecs]]
      | some r =>
        have hd : decodedRecs (XmlItem.respElem (some r) :: rest) = r :: decodedRecs rest := by
          simp [decodedRecs]
        rw [hd]
        simp only [parseXML, runHandler]
        rcases h : handle s r with ⟨s', eo⟩
        cases eo with
        | none => simpa using ih s'
        | some e => simp

/-! ## Claim C8 -/

/-- If no decoded entry of the stream has a propstat whose status contains
`" 200 "`, the `Stat` parse closure leaves its `fi` at `nil` and reports no
error. -/
theorem statParse_none_of_no_ok (parser : String → Option Int) (path : String)
    (items : List XmlItem)
    (h : ∀ r ∈ decodedRecs items, ∀ p ∈ r.propstats,
      strContains p.status responseStatusOK = false) :
    parseXML (statParse parser path) none items = (none, none) := by
  induction items with
  | nil => rfl
  | cons i rest ih =>
    have hrest : ∀ r ∈ decodedRecs rest, ∀ p ∈ r.propstats,
        strContains p.status responseStatusOK = false := by
      intro r hr
      refine h r ?_
      simp only [decodedRecs, List.filterMap_cons] at *
      cases i with
      | otherTok => simpa using hr
      | respElem dec =>
        cases dec with
        | none => simpa using hr
        | some r' => simp_all
    cases i with
    | otherTok => simpa [parseXML] using ih hrest
    | respElem dec =>
      cases dec with
      | none => simpa [parseXML] using ih hrest
      | some r =>
        have hr : ∀ p ∈ r.propstats, strContains p.status responseStatusOK = false := by
          refine h r ?_
          simp [decodedRecs]
        have hgp : getProps r responseStatusOK = none := by
          apply List.find?_eq_none.mpr
          intro p hp
          simp [hr p hp]
        simp only [parseXML, statParse, hgp]
        exact ih hrest

/-- Claim C8: a `Stat` whose 207 multistatus body contains no propstat with a
status containing `" 200 "` returns a `nil` FileInfo together with a `nil`
error (so a caller that checks only the error and then dereferences the
result hits a nil pointer). -/
theorem stat_no_ok_propstat_nil_nil (parser : String → Option Int)
    (st : ClientState) (path : String) (res : HttpResponse) (rest : Transport)
    (h207 : res.statusCode = 207)
    (hents : ∀ r ∈ decodedRecs res.entries, ∀ p ∈ r.propstats,
      strContains p.status responseStatusOK = false) :
    (Stat parser st path (.ok res :: rest)).val = (none, none) := by
  have hne : ¬ res.statusCode = 401 := by rw [h207]; decide
  simp only [Stat, propfind]
  rw [request_ok _ _ _ _ _ _ _ hne]
  simp [h207, statParse_none_of_no_ok parser path res.entries hents]

/-- Witness for C8: one decoded entry carrying only a 404 propstat. -/
theorem stat_no_ok_propstat_nil_nil_witness :
    (Stat (fun _ => none) (NewClient "http://h" (.basicAuth "u" "pw")) "/f"
        [.ok ⟨207, "207 Multi-Status", "",
          [.respElem (some ⟨"/f", [⟨"HTTP/1.1 404 Not Found", "", "", "", "", "", ""⟩]⟩),
           .otherTok]⟩]).val = (none, none) :=
  stat_no_ok_propstat_nil_nil (fun _ => none)
    (NewClient "http://h" (.basicAuth "u" "pw")) "/f"
    ⟨207, "207 Multi-Status", "",
      [.respElem (some ⟨"/f", [⟨"HTTP/1.1 404 Not Found", "", "", "", "", "", ""⟩]⟩),
       .otherTok]⟩ [] (by decide) (by decide)

/-! ## Claim C9 -/

/-- Claim C9: when the underlying request fails with a transport error,
`mkcol` discards the error and returns the literal status `400`, so `Mkdir`
and `MkdirAll` report the failure as a path error carrying `400`; the
conclusion does not mention the error `e`, so the original transport error
is lost. -/
theorem mkcol_transport_to_400 (st : ClientState) (path : String) (e : String)
    (rest : Transport) :
    (mkcol st path (.error e :: rest)).val = 400 ∧
    (Mkdir st path (.error e :: rest)).val =
      some (.pathStatus "Mkdir" (cleanedPath path) 400) ∧
    (MkdirAll st path (.error e :: rest)).val =
      some (.pathStatus "MkdirAll" (cleanedPath path) 400) := by
  refine ⟨?_, ?_, ?_⟩
  · simp [mkcol_eq_err]
  · simp [Mkdir, cleanedPath, mkcol_eq_err]
  · simp [MkdirAll, cleanedPath, mkcol_eq_err]

/-! ## Claim C10 -/

/-- The name `ReadDir` derives for an entry (unescaped href basename, else
the displayname property). -/
def rdName (r : RespRec) (p : PropsRec) : String :=
  match pathUnescape r.href with
  | some ps => pathBase ps
  | none => p.name

/-- Scrubbing: replace every size/date property value by the unparsable
string `"x"`. -/
def scrubProps (p : PropsRec) : PropsRec := { p with size := "x", modified := "x" }

def scrubRec (r : RespRec) : RespRec := { r with propstats := r.propstats.map scrubProps }

def scrubItem : XmlItem → XmlItem
  | .respElem (some r) => .respElem (some (scrubRec r))
  | i => i

def scrubResp (res : HttpResponse) : HttpResponse :=
  { res with entries := res.entries.map scrubItem }

def scrubTr (tr : Transport) : Transport :=
  tr.map fun x =>
    match x with
    | .ok r => .ok (scrubResp r)
    | .error e => .error e

/-- What scrubbing does to a produced metadata record: its size becomes `0`
and its modified time the epoch. -/
def scrubFi (f : Fileinfo) : Fileinfo := { f with size := 0, modified := 0 }

theorem getProps_scrub (r : RespRec) (status : String) :
    getProps (scrubRec r) status = (getProps r status).map scrubProps := by
  simp only [getProps, scrubRec, List.find?_map]
  rfl

/-- Scrubbing commutes with the `ReadDir` parse closure: the handler's error
output is unchanged and its state output is the scrub of the original state.
In particular no size/date property value can influence whether the closure
errors. -/
theorem readDirParse_scrub (parser : String → Option Int) (path : String)
    (s : List Fileinfo × Bool) (r : RespRec) :
    readDirParse (fun _ => none) path (s.1.map scrubFi, s.2) (scrubRec r) =
      (((readDirParse parser path s r).1.1.map scrubFi,
        (readDirParse parser path s r).1.2),
       (readDirParse parser path s r).2) := by
  rcases s with ⟨files, skipSelf⟩
  cases skipSelf
  · simp only [readDirParse, getProps_scrub]
    rcases hgp : getProps r responseStatusOK with _ | p
    · simp
    · simp only [Option.map_some]
      have hh : (scrubRec r).href = r.href := rfl
      by_cases hcoll : p.typeLocal = "collection"
      · simp [scrubProps, hcoll, hh, parseModified, parseInt64, goParseInt64,
          digitsVal, digitsValAux, digitVal, scrubFi]
      · simp [scrubProps, hcoll, hh, parseModified, parseInt64, goParseInt64,
          digitsVal, digitsValAux, digitVal, scrubFi]
  · simp only [readDirParse, getProps_scrub]
    rcases hgp : getProps r responseStatusOK with _ | p
    · simp
    · simp only [Option.map_some]
      by_cases hcoll : p.typeLocal = "collection" <;>
        simp [scrubProps, hcoll]

/-- Scrubbing commutes with the whole multistatus walk of `ReadDir`: the
walk over the scrubbed stream (with the never-succeeding date parser)
produces the scrubbed file list and the *same* error. -/
theorem parseXML_readDir_scrub (parser : String → Option Int) (path : String) :
    ∀ (items : List XmlItem) (s : List Fileinfo × Bool),
    parseXML (readDirParse (fun _ => none) path) (s.1.map scrubFi, s.2)
        (items.map scrubItem) =
      (((parseXML (readDirParse parser path) s items).1.1.map scrubFi,
        (parseXML (readDirParse parser path) s items).1.2),
       (parseXML (readDirParse parser path) s items).2) := by
  intro items
  induction items with
  | nil => intro s; rfl
  | cons i rest ih =>
    intro s
    cases i with
    | otherTok => simpa [parseXML, scrubItem] using ih s
    | respElem dec =>
      cases dec with
      | none => simpa [parseXML, scrubItem] using ih s
      | some r =>
        simp only [List.map_cons, scrubItem, parseXML]
        rw [readDirParse_scrub parser path s r]
        rcases h : readDirParse parser path s r with ⟨s', eo⟩
        cases eo with
        | none => simpa [h] using ih s'
        | some e => simp [h]

/-- The error result of `ReadDir` is unchanged when every size/date property
value in the multistatus bodies is replaced by an unparsable string and the
date parser never succeeds: malformed numeric or date property values never
cause `ReadDir` to error. -/
theorem readDir_err_scrub (parser : String → Option Int) (st : ClientState)
    (path0 : String) (tr : Transport) :
    (ReadDir (fun _ => none) st path0 (scrubTr tr)).val.2 =
      (ReadDir parser st path0 tr).val.2 := by
  cases tr with
  | nil =>
    simp only [scrubTr, List.map_nil, ReadDir, propfind]
    rw [request_nil]
  | cons x rest =>
    cases x with
    | error e =>
      simp [scrubTr, ReadDir, propfind, request_err, GoErr.isPathError]
    | ok res =>
      by_cases h401 : res.statusCode = 401
      · have h401' : (scrubResp res).statusCode = 401 := h401
        simp only [scrubTr, List.map_cons, ReadDir, propfind]
        rw [request_401 _ _ _ _ _ _ _ h401', request_401 _ _ _ _ _ _ _ h401]
        simp [GoErr.isPathError]
      · have h401' : ¬ (scrubResp res).statusCode = 401 := h401
        simp only [scrubTr, List.map_cons, ReadDir, propfind]
        rw [request_ok _ _ _ _ _ _ _ h401', request_ok _ _ _ _ _ _ _ h401]
        by_cases h207 : res.statusCode = 207
        · have h207' : (scrubResp res).statusCode = 207 := h207
          have hents : (scrubResp res).entries = res.entries.map scrubItem := rfl
          simp only [h207, h207', ne_eq, not_true_eq_false, if_false, ite_false,
            if_neg (by simp : ¬ ¬ (207 : Nat) = 207)]
          have hsim := parseXML_readDir_scrub parser (withSurroundingSlashes path0)
            res.entries ([], true)
          simp only [List.map_nil] at hsim
          rw [hents, hsim]
          rcases hp : parseXML (readDirParse parser (withSurroundingSlashes path0))
              ([], true) res.entries with ⟨⟨files, b⟩, eo⟩
          cases eo with
          | none => simp [hp]
          | some e => cases e <;> simp [hp, GoErr.isPathError]
        · have h207' : ¬ (scrubResp res).statusCode = 207 := h207
          have hline : (scrubResp res).statusLine = res.statusLine := rfl
          simp [h207, h207', hline, GoErr.isPathError]

/-- Claim C10: a `getcontentlength` that does not parse as a decimal 64-bit
integer yields size `0`; a `getlastmodified` that does not parse as an RFC
1123 date yields the Unix epoch; each non-collection entry `ReadDir` keeps
carries exactly `parseInt64` of its size property and `parseModified` of its
date property, and the parse closure never errors on such an entry; and the
error result of `ReadDir` is invariant under replacing every size/date
property value by an unparsable string — malformed numeric or date property
values never cause `ReadDir` to return an error. -/
theorem readDir_malformed_props_tolerated :
    (∀ s : String, goParseInt64 s = none → parseInt64 s = 0) ∧
    (∀ (rfc1123 : String → Option Int) (s : String),
      rfc1123 s = none → parseModified rfc1123 s = 0) ∧
    (∀ (rfc1123 : String → Option Int) (path : String) (files : List Fileinfo)
        (r : RespRec) (p : PropsRec),
      getProps r responseStatusOK = some p → ¬ p.typeLocal = "collection" →
      readDirParse rfc1123 path (files, false) r =
        ((files ++ [⟨path ++ rdName r p, rdName r p, p.contentType,
          parseInt64 p.size, parseModified rfc1123 p.modified, p.etag, false⟩],
          false), none)) ∧
    (∀ (rfc1123 : String → Option Int) (st : ClientState) (path0 : String)
        (tr : Transport),
      (ReadDir (fun _ => none) st path0 (scrubTr tr)).val.2 =
        (ReadDir rfc1123 st path0 tr).val.2) := by
  refine ⟨?_, ?_, ?_, readDir_err_scrub⟩
  · intro s h
    simp [parseInt64, h]
  · intro rfc1123 s h
    simp [parseModified, h]
  · intro rfc1123 path files r p hgp hcoll
    simp [readDirParse, hgp, hcoll, rdName]

/-- Witness for C10: `"12x"` is not a decimal 64-bit integer and parses to
size `0`; an unparsable date yields the epoch; a concrete entry whose size
and date properties are both malformed is kept with size `0` and epoch
modified time and produces no error. -/
theorem readDir_malformed_props_tolerated_witness :
    parseInt64 "12x" = 0 ∧
    parseModified (fun _ => none) "yesterday-ish" = 0 ∧
    readDirParse (fun _ => none) "/d/" ([], false)
        ⟨"/d/f.txt", [⟨"HTTP/1.1 200 OK", "f.txt", "", "bad", "text/plain", "W1",
          "notadate"⟩]⟩ =
      (([⟨"/d/f.txt", "f.txt", "text/plain", 0, 0, "W1", false⟩], false), none) :=
  ⟨readDir_malformed_props_tolerated.1 "12x" (by decide),
   readDir_malformed_props_tolerated.2.1 (fun _ => none) "yesterday-ish" rfl,
   readDir_malformed_props_tolerated.2.2.1 (fun _ => none) "/d/" []
     ⟨"/d/f.txt", [⟨"HTTP/1.1 200 OK", "f.txt", "", "bad", "text/plain", "W1", "notadate"⟩]⟩
     ⟨"HTTP/1.1 200 OK", "f.txt", "", "bad", "text/plain", "W1", "notadate"⟩
     (by decide) (by decide)⟩
